import Mathlib

/-
Verification of the stock-formula DSL engine (lexer, recursive-descent
parser with interleaved evaluation, and the windowed analytic functions
MA / REF / HHV / LLV over float series).

Modelling conventions:
* A float is modelled as `FVal`: either `nan` (the "no data" sentinel) or
  `num q` with `q : ℚ` exact.  The claims under study concern window
  selection, NaN policy and control flow, not IEEE rounding, and every
  concrete scenario uses exactly representable values.
* Go runtime panics (division by zero, series length mismatch, negative
  slice index) are modelled as `RunError.panic`, ordinary returned `error`
  values as `RunError.err`; a panic propagates through every caller,
  matching Go's unwinding, while `err` follows the source's explicit
  `if err != nil` handling.
* The parser's receiver is threaded explicitly: its immutable fields
  (the token slice and the input data map) are passed as unchanging
  arguments, and the two mutated fields (cursor, symbol table) are
  returned alongside every result (Go mutates them on error paths too).
* Recursive parse functions take a fuel argument; the Go loops always
  advance the cursor, so any fuel larger than the token count reproduces
  the source behaviour.  The lexer likewise consumes at least one
  character per iteration, so `length + 1` fuel is always enough.
* `unicode.IsDigit / IsLetter / IsSpace` are modelled by their ASCII
  restrictions; every program text in scope is ASCII.
-/

namespace Formula

/-- A float value: the NaN sentinel or an exact number. -/
inductive FVal : Type where
  | nan : FVal
  | num : ℚ → FVal
deriving DecidableEq, Repr

/-- IEEE-style addition on modelled floats: NaN absorbs. -/
def addF : FVal → FVal → FVal
  | FVal.num a, FVal.num b => FVal.num (a + b)
  | _, _ => FVal.nan

/-- IEEE-style subtraction on modelled floats: NaN absorbs. -/
def subF : FVal → FVal → FVal
  | FVal.num a, FVal.num b => FVal.num (a - b)
  | _, _ => FVal.nan

/-- IEEE-style multiplication on modelled floats: NaN absorbs. -/
def mulF : FVal → FVal → FVal
  | FVal.num a, FVal.num b => FVal.num (a * b)
  | _, _ => FVal.nan

/-- IEEE-style division on modelled floats: NaN absorbs.  The evaluator
only divides after its `right[i] == 0` guard, so the divisor is nonzero
wherever this is reached with two numbers. -/
def divF : FVal → FVal → FVal
  | FVal.num a, FVal.num b => FVal.num (a / b)
  | _, _ => FVal.nan

/-- The Go comparison `right[i] == 0`: false on NaN, true exactly on the
number zero. -/
def isZeroF : FVal → Bool
  | FVal.num b => b = 0
  | FVal.nan => false

/-- A run outcome that is not a value: `err` is an `error` returned by the
source, `panic` is a Go runtime panic (fatal abort). -/
inductive RunError : Type where
  | err : String → RunError
  | panic : String → RunError
deriving DecidableEq, Repr

/-- `strconv.Atoi`: optional sign followed by decimal digits (the int64
overflow bound is not modelled; no claim involves values near it). -/
def digitsToNat (cs : List Char) : Option Nat :=
  if cs = [] then none
  else if cs.all Char.isDigit then
    some (cs.foldl (fun n c => n * 10 + (c.toNat - 48)) 0)
  else none

/-- `strconv.Atoi` on a string, returning `none` on parse failure. -/
def goAtoi (s : String) : Option Int :=
  match s.data with
  | [] => none
  | '+' :: rest => (digitsToNat rest).map (fun n => (n : Int))
  | '-' :: rest => (digitsToNat rest).map (fun n => -(n : Int))
  | cs => (digitsToNat cs).map (fun n => (n : Int))

/-- Numeric value of a digit run, zero when empty. -/
def natOfDigits (cs : List Char) : Nat :=
  cs.foldl (fun n c => n * 10 + (c.toNat - 48)) 0

/-- `strconv.ParseFloat` restricted to the token shapes the lexer can
produce: a nonempty run of digits and dots.  Valid iff at most one dot
appears and at least one digit is present; the value is the exact decimal
(IEEE rounding not modelled, see header). -/
def goParseFloat (s : String) : Option ℚ :=
  let cs := s.data
  if cs = [] then none
  else if ¬ cs.all (fun c => c.isDigit || c = '.') then none
  else if 1 < (cs.filter (fun c => c = '.')).length then none
  else
    let ip := cs.takeWhile (fun c => c ≠ '.')
    let fp := (cs.dropWhile (fun c => c ≠ '.')).drop 1
    if ip = [] ∧ fp = [] then none
    else some ((natOfDigits ip : ℚ) + (natOfDigits fp : ℚ) / (10 : ℚ) ^ fp.length)

/-- Shorthand to build an all-number series from rationals. -/
def toSeries (l : List ℚ) : List FVal := l.map FVal.num

/- ## Windowed-function cores (`evalMA` / `evalREF` / `evalHHV` / `evalLLV`
inner loops, after the argument checks) -/

/-- The Go loop header `for j := i-period+1; j <= i; j++`: the list of
integer indices visited, in order.  Empty when `period ≤ 0`. -/
def windowIdx (i : Nat) (period : Int) : List Int :=
  (List.range period.toNat).map (fun (k : Nat) => (i : Int) - period + 1 + (k : Int))

/-- `seriesData[j]` guarded by `j >= 0 && j < len(seriesData)`. -/
def valAt (s : List FVal) (j : Int) : Option FVal :=
  if h : 0 ≤ j ∧ j.toNat < s.length then some (s.get ⟨j.toNat, h.2⟩) else none

/-- The Go guard `j >= 0 && j < len(seriesData) && !math.IsNaN(seriesData[j])`,
packaged with the selected value. -/
def numAt (s : List FVal) (j : Int) : Option ℚ :=
  match valAt s j with
  | some (FVal.num q) => some q
  | _ => none

/-- One iteration of the MA loop body: add the value and bump the count
when the guard holds. -/
def maStep (s : List FVal) (acc : ℚ × Nat) (j : Int) : ℚ × Nat :=
  match numAt s j with
  | some q => (acc.1 + q, acc.2 + 1)
  | none => acc

/-- `evalMA`'s value at index `i`: adaptive-denominator trailing mean. -/
def maAt (s : List FVal) (period : Int) (i : Nat) : FVal :=
  let sc := (windowIdx i period).foldl (maStep s) (0, 0)
  if 0 < sc.2 then FVal.num (sc.1 / (sc.2 : ℚ)) else FVal.nan

/-- `evalMA`'s output series (after its argument checks). -/
def maCore (s : List FVal) (period : Int) : List FVal :=
  (List.range s.length).map (maAt s period)

/-- `evalREF`'s value at index `i`: the Go guard
`i >= offset && i-offset < len(seriesData) && i-offset >= 0` selects
`seriesData[i-offset]`, otherwise NaN. -/
def refAt (s : List FVal) (offset : Int) (i : Nat) : FVal :=
  if h : offset ≤ (i : Int) ∧ (i : Int) - offset < (s.length : Int)
      ∧ 0 ≤ (i : Int) - offset then
    s.get ⟨((i : Int) - offset).toNat, by omega⟩
  else FVal.nan

/-- `evalREF`'s output series (after its argument checks). -/
def refCore (s : List FVal) (offset : Int) : List FVal :=
  (List.range s.length).map (refAt s offset)

/-- One iteration of the HHV loop body:
`if valid && (IsNaN(max) || s[j] > max) { max = s[j] }`. -/
def hhvStep (s : List FVal) (m : FVal) (j : Int) : FVal :=
  match numAt s j with
  | some q =>
    match m with
    | FVal.nan => FVal.num q
    | FVal.num m0 => if m0 < q then FVal.num q else FVal.num m0
  | none => m

/-- One iteration of the LLV loop body:
`if valid && (IsNaN(min) || s[j] < min) { min = s[j] }`. -/
def llvStep (s : List FVal) (m : FVal) (j : Int) : FVal :=
  match numAt s j with
  | some q =>
    match m with
    | FVal.nan => FVal.num q
    | FVal.num m0 => if q < m0 then FVal.num q else FVal.num m0
  | none => m

/-- `evalHHV`'s value at index `i`. -/
def hhvAt (s : List FVal) (period : Int) (i : Nat) : FVal :=
  (windowIdx i period).foldl (hhvStep s) FVal.nan

/-- `evalHHV`'s output series (after its argument checks). -/
def hhvCore (s : List FVal) (period : Int) : List FVal :=
  (List.range s.length).map (hhvAt s period)

/-- `evalLLV`'s value at index `i`. -/
def llvAt (s : List FVal) (period : Int) (i : Nat) : FVal :=
  (windowIdx i period).foldl (llvStep s) FVal.nan

/-- `evalLLV`'s output series (after its argument checks). -/
def llvCore (s : List FVal) (period : Int) : List FVal :=
  (List.range s.length).map (llvAt s period)

/- ## Token model and lexer -/

/-- Token kinds, as in the source (`COMMA`/`EOF` are declared there but the
lexer emits `,` as an `OPERATOR` token and end of input ends the loop). -/
inductive TokenType : Type where
  | NUMBER | OPERATOR | COMPARISON_OP | SEMICOLON | ASSIGN_OP
  | IDENTIFIER | COMMA | EOF | LPAREN | RPAREN
deriving DecidableEq, Repr

/-- A lexical token. -/
structure Token : Type where
  type : TokenType
  value : String
deriving DecidableEq, Repr

/-- ASCII restriction of `unicode.IsSpace`. -/
def goIsSpace (c : Char) : Bool :=
  c = ' ' || c = '\t' || c = '\n' || c = '\x0d' || c = '\x0b' || c = '\x0c'

/-- Character class of the number-scanning loop: digits and dots. -/
def isNumChar (c : Char) : Bool := c.isDigit || c = '.'

/-- Character class continuing an identifier: letters and digits (ASCII
restriction of `unicode.IsLetter || unicode.IsDigit`). -/
def isIdentChar (c : Char) : Bool := c.isAlpha || c.isDigit

/-- One pass of `Lexer.Tokenize`, consuming at least one character per
iteration; fuel larger than the input length reproduces the source loop. -/
def tokenizeGo : Nat → List Char → List Token → Except RunError (List Token)
  | 0, _, _ => Except.error (RunError.panic "out of fuel")
  | _ + 1, [], acc => Except.ok acc
  | fuel + 1, c :: rest, acc =>
    if goIsSpace c then tokenizeGo fuel rest acc
    else if isNumChar c then
      tokenizeGo fuel (rest.dropWhile isNumChar)
        (acc ++ [⟨TokenType.NUMBER, String.mk (c :: rest.takeWhile isNumChar)⟩])
    else if c.isAlpha then
      tokenizeGo fuel (rest.dropWhile isIdentChar)
        (acc ++ [⟨TokenType.IDENTIFIER, String.mk (c :: rest.takeWhile isIdentChar)⟩])
    else if c = '+' || c = '-' || c = '*' || c = '/' || c = ',' then
      tokenizeGo fuel rest (acc ++ [⟨TokenType.OPERATOR, String.mk [c]⟩])
    else if c = '(' then
      tokenizeGo fuel rest (acc ++ [⟨TokenType.LPAREN, "("⟩])
    else if c = ')' then
      tokenizeGo fuel rest (acc ++ [⟨TokenType.RPAREN, ")"⟩])
    else if c = ':' then
      match rest with
      | '=' :: rest2 => tokenizeGo fuel rest2 (acc ++ [⟨TokenType.ASSIGN_OP, ":="⟩])
      | _ => tokenizeGo fuel rest (acc ++ [⟨TokenType.ASSIGN_OP, ":"⟩])
    else if c = '<' || c = '>' || c = '=' || c = '!' then
      match rest with
      | '=' :: rest2 =>
        tokenizeGo fuel rest2 (acc ++ [⟨TokenType.COMPARISON_OP, String.mk [c, '=']⟩])
      | _ => tokenizeGo fuel rest (acc ++ [⟨TokenType.COMPARISON_OP, String.mk [c]⟩])
    else if c = ';' then
      tokenizeGo fuel rest (acc ++ [⟨TokenType.SEMICOLON, ";"⟩])
    else Except.error (RunError.err ("invalid character: " ++ String.mk [c]))

/-- `Lexer.Tokenize` on a whole input string. -/
def Tokenize (s : String) : Except RunError (List Token) :=
  tokenizeGo (s.length + 1) s.data []

/- ## AST and symbol table -/

/-- AST node kinds, as in the source. -/
inductive NodeType : Type where
  | NUMBER | OPERATOR | EXPRESSION | VARIABLE | SYMBOL | FUNCTION
deriving DecidableEq, Repr

/-- An AST node: kind, token text, children, and the memoised result slice
(the `Result` field, filled only for symbol references). -/
inductive Node : Type where
  | mk : NodeType → String → List Node → List FVal → Node

/-- The `Value` field of a node. -/
def Node.value : Node → String
  | Node.mk _ v _ _ => v

/-- The `Type` field of a node. -/
def Node.type : Node → NodeType
  | Node.mk t _ _ _ => t

/-- The symbol table / input data map: an association list standing in for
the Go `map[string][]float64` (first binding of a key wins on lookup). -/
def lookupS (m : List (String × List FVal)) (k : String) : Option (List FVal) :=
  match m with
  | [] => none
  | (k0, v0) :: rest => if k0 = k then some v0 else lookupS rest k

/-- Go map assignment `m[k] = v` on the association-list model. -/
def setSym (m : List (String × List FVal)) (k : String) (v : List FVal) :
    List (String × List FVal) :=
  match m with
  | [] => [(k, v)]
  | (k0, v0) :: rest => if k0 = k then (k, v) :: rest else (k0, v0) :: setSym rest k v

/-- The reserved-word set built by `NewParser`. -/
def reservedWords : List String :=
  ["CLOSE", "OPEN", "HIGH", "LOW", "MA", "REF", "HHV", "LLV", "SMA", "WMA", "EMA"]

/-- The broadcast length for a scalar literal: Go ranges over `p.data` and
takes the first entry's length (map order is arbitrary; modelled as the
first entry of the association list), zero when the map is empty. -/
def dataLen (d : List (String × List FVal)) : Nat :=
  match d with
  | [] => 0
  | (_, v) :: _ => v.length

/- ## Elementwise operators (`applyOperator`) -/

/-- One index of `applyOperator`: `+ - * /` elementwise, panicking on a
zero divisor or an unsupported operator. -/
def applyOp1 (op : String) (l r : FVal) : Except RunError FVal :=
  if op = "+" then Except.ok (addF l r)
  else if op = "-" then Except.ok (subF l r)
  else if op = "*" then Except.ok (mulF l r)
  else if op = "/" then
    if isZeroF r then Except.error (RunError.panic "除数为零")
    else Except.ok (divF l r)
  else Except.error (RunError.panic ("不支持的运算符: " ++ op))

/-- The index loop of `applyOperator`, stopping at the first panic. -/
def applyOpList (op : String) : List (FVal × FVal) → Except RunError (List FVal)
  | [] => Except.ok []
  | (l, r) :: rest =>
    match applyOp1 op l r with
    | Except.error e => Except.error e
    | Except.ok v =>
      match applyOpList op rest with
      | Except.error e => Except.error e
      | Except.ok vs => Except.ok (v :: vs)

/-- `applyOperator`: panics on a length mismatch, then applies the operator
index by index. -/
def applyOperator (op : String) (left right : List FVal) :
    Except RunError (List FVal) :=
  if left.length = right.length then applyOpList op (left.zip right)
  else Except.error (RunError.panic "时间序列长度不匹配")

/- ## The evaluator (`Parser.eval`) -/

/-- `Parser.eval` on a node, over the input data map `d` and the current
symbol table `st` (read-only here; the assignment statement stores the
result).  The `OPERATOR` and `EXPRESSION` branches are the source's two
identical cases; accessing a missing child is the corresponding slice
index panic.  Each function branch checks the argument count, evaluates
the series argument, then parses the second argument's literal token text
with `strconv.Atoi`. -/
def evalNode (d st : List (String × List FVal)) : Node → Except RunError (List FVal)
  | Node.mk NodeType.NUMBER v _ _ =>
    match goParseFloat v with
    | none =>
      Except.error (RunError.err ("strconv.ParseFloat: parsing " ++ v ++ ": invalid syntax"))
    | some q => Except.ok (List.replicate (dataLen d) (FVal.num q))
  | Node.mk NodeType.OPERATOR _ ch _ =>
    match ch with
    | l :: r :: o :: _ =>
      match evalNode d st l with
      | Except.error e => Except.error e
      | Except.ok lr =>
        match evalNode d st r with
        | Except.error e => Except.error e
        | Except.ok rr => applyOperator o.value lr rr
    | _ => Except.error (RunError.panic "index out of range")
  | Node.mk NodeType.EXPRESSION _ ch _ =>
    match ch with
    | l :: r :: o :: _ =>
      match evalNode d st l with
      | Except.error e => Except.error e
      | Except.ok lr =>
        match evalNode d st r with
        | Except.error e => Except.error e
        | Except.ok rr => applyOperator o.value lr rr
    | _ => Except.error (RunError.panic "index out of range")
  | Node.mk NodeType.VARIABLE v _ _ =>
    match lookupS d v with
    | some val => Except.ok val
    | none => Except.error (RunError.err ("undefined variable: " ++ v))
  | Node.mk NodeType.SYMBOL v _ _ =>
    match lookupS st v with
    | some val => Except.ok val
    | none => Except.error (RunError.err ("undefined symbol: " ++ v))
  | Node.mk NodeType.FUNCTION v ch _ =>
    if v = "MA" then
      match ch with
      | [a0, a1] =>
        match evalNode d st a0 with
        | Except.error e => Except.error e
        | Except.ok s =>
          match goAtoi a1.value with
          | none => Except.error (RunError.err "MA 函数的第二个参数必须是整数")
          | some period => Except.ok (maCore s period)
      | _ => Except.error (RunError.err "MA 函数需要两个参数")
    else if v = "REF" then
      match ch with
      | [a0, a1] =>
        match evalNode d st a0 with
        | Except.error e => Except.error e
        | Except.ok s =>
          match goAtoi a1.value with
          | none => Except.error (RunError.err "REF 函数的第二个参数必须是整数")
          | some offset => Except.ok (refCore s offset)
      | _ => Except.error (RunError.err "REF 函数需要两个参数")
    else if v = "HHV" then
      match ch with
      | [a0, a1] =>
        match evalNode d st a0 with
        | Except.error e => Except.error e
        | Except.ok s =>
          match goAtoi a1.value with
          | some period =>
            if 0 < period then Except.ok (hhvCore s period)
            else Except.error (RunError.err "HHV 函数的第二个参数必须是正整数")
          | none => Except.error (RunError.err "HHV 函数的第二个参数必须是正整数")
      | _ => Except.error (RunError.err "HHV 函数需要两个参数")
    else if v = "LLV" then
      match ch with
      | [a0, a1] =>
        match evalNode d st a0 with
        | Except.error e => Except.error e
        | Except.ok s =>
          match goAtoi a1.value with
          | some period =>
            if 0 < period then Except.ok (llvCore s period)
            else Except.error (RunError.err "LLV 函数的第二个参数必须是正整数")
          | none => Except.error (RunError.err "LLV 函数的第二个参数必须是正整数")
      | _ => Except.error (RunError.err "LLV 函数需要两个参数")
    else Except.error (RunError.err ("undefined function: " ++ v))

/- ## Parser state and token access

The Go `Parser` struct holds `tokens`, `cursor`, `data`, `symbolTable`
and the fixed reserved-word set.  `tokens` and `data` are never written
after construction, so they are passed as unchanging arguments; the two
mutated fields — the cursor and the symbol table — are threaded through
every step and returned alongside the result (Go mutates the receiver on
both the value and the error path). -/

/-- The symbol table / input data map type. -/
abbrev SymT : Type := List (String × List FVal)

/-- A parser step's outcome: the returned value or error, with the cursor
and symbol table the step leaves behind. -/
inductive PRes (α : Type) : Type where
  | ok : α → Int → SymT → PRes α
  | fail : RunError → Int → SymT → PRes α
deriving DecidableEq, Repr

/-- The returned value or error of a parser step. -/
def PRes.result {α : Type} : PRes α → Except RunError α
  | PRes.ok a _ _ => Except.ok a
  | PRes.fail e _ _ => Except.error e

/-- The cursor after a parser step. -/
def PRes.cursorAfter {α : Type} : PRes α → Int
  | PRes.ok _ c _ => c
  | PRes.fail _ c _ => c

/-- The symbol table after a parser step. -/
def PRes.symAfter {α : Type} : PRes α → SymT
  | PRes.ok _ _ st => st
  | PRes.fail _ _ st => st

/-- `p.tokens[p.cursor]` as Go would evaluate it; `none` on a negative
index means the slice access would panic. -/
def tokenAt (ts : List Token) (c : Int) : Option Token :=
  if 0 ≤ c then ts[c.toNat]? else none

/-- `Parser.nextToken`: bounds check, read, advance.  A negative cursor
(never reached from a real run) is the Go slice-index panic. -/
def nextToken (ts : List Token) (c : Int) (st : SymT) : PRes Token :=
  if (ts.length : Int) ≤ c then PRes.fail (RunError.err "no more tokens") c st
  else
    match tokenAt ts c with
    | some t => PRes.ok t (c + 1) st
    | none => PRes.fail (RunError.panic "index out of range") c st

/-- `Parser.consumeOperator`: returns the empty string (with no error)
when the token read is not an `OPERATOR` token. -/
def consumeOperator (ts : List Token) (c : Int) (st : SymT) : PRes String :=
  match nextToken ts c st with
  | PRes.fail e c1 st1 => PRes.fail e c1 st1
  | PRes.ok t c1 st1 =>
    if t.type = TokenType.OPERATOR then PRes.ok t.value c1 st1 else PRes.ok "" c1 st1

/-- `Parser.parseIdentifier`. -/
def parseIdentifier (ts : List Token) (c : Int) (st : SymT) : PRes String :=
  match nextToken ts c st with
  | PRes.fail e c1 st1 => PRes.fail e c1 st1
  | PRes.ok t c1 st1 =>
    if t.type = TokenType.IDENTIFIER then PRes.ok t.value c1 st1
    else PRes.fail (RunError.err "expected identifier") c1 st1

/- ## Recursive-descent parser

Each Go loop advances the cursor on every iteration, so the functions are
fuelled; every recursive call strictly decreases the fuel, and any fuel
above the token count reproduces the source.  Where the source folds a
returned `error` into a fresh message (`expected \x27)\x27`,
`invalid assignment operator`, `expected \x27(\x27`), a modelled panic is
propagated instead, matching Go's unwinding. -/

mutual

/-- `Parser.parseExpression`: one term, then the `+`/`-` loop. -/
def parseExpression : Nat → List Token → Int → SymT → PRes Node
  | 0, _, c, st => PRes.fail (RunError.panic "out of fuel") c st
  | fuel + 1, ts, c, st =>
    match parseTerm fuel ts c st with
    | PRes.fail e c1 st1 => PRes.fail e c1 st1
    | PRes.ok left c1 st1 => parseExpressionLoop fuel ts left c1 st1

/-- The `for` loop of `parseExpression`: rewind and stop unless the next
token is a `+` or `-` operator. -/
def parseExpressionLoop : Nat → List Token → Node → Int → SymT → PRes Node
  | 0, _, _, c, st => PRes.fail (RunError.panic "out of fuel") c st
  | fuel + 1, ts, left, c, st =>
    match consumeOperator ts c st with
    | PRes.fail (RunError.panic m) c1 st1 => PRes.fail (RunError.panic m) c1 st1
    | PRes.fail (RunError.err _) c1 st1 => PRes.ok left (c1 - 1) st1
    | PRes.ok op c1 st1 =>
      if op = "+" ∨ op = "-" then
        match parseTerm fuel ts c1 st1 with
        | PRes.fail e c2 st2 => PRes.fail e c2 st2
        | PRes.ok right c2 st2 =>
          parseExpressionLoop fuel ts
            (Node.mk NodeType.EXPRESSION ""
              [left, right, Node.mk NodeType.OPERATOR op [] []] []) c2 st2
      else PRes.ok left (c1 - 1) st1

/-- `Parser.parseTerm`: one factor, then the `*`/`/` loop. -/
def parseTerm : Nat → List Token → Int → SymT → PRes Node
  | 0, _, c, st => PRes.fail (RunError.panic "out of fuel") c st
  | fuel + 1, ts, c, st =>
    match parseFactor fuel ts c st with
    | PRes.fail e c1 st1 => PRes.fail e c1 st1
    | PRes.ok left c1 st1 => parseTermLoop fuel ts left c1 st1

/-- The `for` loop of `parseTerm`. -/
def parseTermLoop : Nat → List Token → Node → Int → SymT → PRes Node
  | 0, _, _, c, st => PRes.fail (RunError.panic "out of fuel") c st
  | fuel + 1, ts, left, c, st =>
    match consumeOperator ts c st with
    | PRes.fail (RunError.panic m) c1 st1 => PRes.fail (RunError.panic m) c1 st1
    | PRes.fail (RunError.err _) c1 st1 => PRes.ok left (c1 - 1) st1
    | PRes.ok op c1 st1 =>
      if op = "*" ∨ op = "/" then
        match parseFactor fuel ts c1 st1 with
        | PRes.fail e c2 st2 => PRes.fail e c2 st2
        | PRes.ok right c2 st2 =>
          parseTermLoop fuel ts
            (Node.mk NodeType.EXPRESSION ""
              [left, right, Node.mk NodeType.OPERATOR op [] []] []) c2 st2
      else PRes.ok left (c1 - 1) st1

/-- `Parser.parseFactor`: number, parenthesised expression, function call,
reserved variable, or previously assigned symbol; anything else is an
error.  Name resolution happens here, at parse time. -/
def parseFactor : Nat → List Token → Int → SymT → PRes Node
  | 0, _, c, st => PRes.fail (RunError.panic "out of fuel") c st
  | fuel + 1, ts, c, st =>
    match nextToken ts c st with
    | PRes.fail e c1 st1 => PRes.fail e c1 st1
    | PRes.ok tok c1 st1 =>
      match tok.type with
      | TokenType.NUMBER => PRes.ok (Node.mk NodeType.NUMBER tok.value [] []) c1 st1
      | TokenType.LPAREN =>
        match parseExpression fuel ts c1 st1 with
        | PRes.fail e c2 st2 => PRes.fail e c2 st2
        | PRes.ok expr c2 st2 =>
          match nextToken ts c2 st2 with
          | PRes.fail (RunError.panic m) c3 st3 =>
            PRes.fail (RunError.panic m) c3 st3
          | PRes.fail (RunError.err _) c3 st3 =>
            PRes.fail (RunError.err "expected \x27)\x27") c3 st3
          | PRes.ok cp c3 st3 =>
            if cp.type = TokenType.RPAREN then PRes.ok expr c3 st3
            else PRes.fail (RunError.err "expected \x27)\x27") c3 st3
      | TokenType.IDENTIFIER =>
        match nextToken ts c1 st1 with
        | PRes.fail e c2 st2 => PRes.fail e c2 st2
        | PRes.ok next c2 st2 =>
          if next.type = TokenType.LPAREN then
            parseFunctionCall fuel ts tok.value (c2 - 1) st2
          else
            if tok.value ∈ reservedWords then
              PRes.ok (Node.mk NodeType.VARIABLE tok.value [] []) (c2 - 1) st2
            else
              match lookupS st2 tok.value with
              | some val =>
                PRes.ok (Node.mk NodeType.SYMBOL tok.value [] val) (c2 - 1) st2
              | none =>
                PRes.fail
                  (RunError.err ("undefined variable or function: " ++ tok.value))
                  (c2 - 1) st2
      | _ => PRes.fail (RunError.err ("unexpected token: " ++ tok.value)) c1 st1

/-- `Parser.parseFunctionCall`: consume `(` then the argument loop. -/
def parseFunctionCall : Nat → List Token → String → Int → SymT → PRes Node
  | 0, _, _, c, st => PRes.fail (RunError.panic "out of fuel") c st
  | fuel + 1, ts, name, c, st =>
    match nextToken ts c st with
    | PRes.fail (RunError.panic m) c1 st1 => PRes.fail (RunError.panic m) c1 st1
    | PRes.fail (RunError.err _) c1 st1 =>
      PRes.fail (RunError.err "expected \x27(\x27") c1 st1
    | PRes.ok lp c1 st1 =>
      if lp.type = TokenType.LPAREN then parseFunctionCallLoop fuel ts name [] c1 st1
      else PRes.fail (RunError.err "expected \x27(\x27") c1 st1

/-- The argument loop of `parseFunctionCall`: one expression per
iteration, appended to the accumulated children, until `)` is read; a
separator other than `,` is an error. -/
def parseFunctionCallLoop : Nat → List Token → String → List Node → Int → SymT → PRes Node
  | 0, _, _, _, c, st => PRes.fail (RunError.panic "out of fuel") c st
  | fuel + 1, ts, name, args, c, st =>
    match parseExpression fuel ts c st with
    | PRes.fail e c1 st1 => PRes.fail e c1 st1
    | PRes.ok arg c1 st1 =>
      match nextToken ts c1 st1 with
      | PRes.fail e c2 st2 => PRes.fail e c2 st2
      | PRes.ok next c2 st2 =>
        if next.type = TokenType.RPAREN then
          PRes.ok (Node.mk NodeType.FUNCTION name (args ++ [arg]) []) c2 st2
        else if next.value = "," then
          parseFunctionCallLoop fuel ts name (args ++ [arg]) c2 st2
        else PRes.fail (RunError.err "expected \x27,\x27 or \x27)\x27") c2 st2

end

/-- `Parser.parseAssignment`: identifier, reserved-word check, assignment
operator, expression, evaluation, then the symbol-table store.  The
reserved-word error returns before anything else happens. -/
def parseAssignment (fuel : Nat) (ts : List Token) (d : SymT) (c : Int)
    (st : SymT) : PRes Unit :=
  match parseIdentifier ts c st with
  | PRes.fail e c1 st1 => PRes.fail e c1 st1
  | PRes.ok ident c1 st1 =>
    if ident ∈ reservedWords then
      PRes.fail (RunError.err ("\x27" ++ ident ++ "\x27 is a reserved word")) c1 st1
    else
      match nextToken ts c1 st1 with
      | PRes.fail (RunError.panic m) c2 st2 => PRes.fail (RunError.panic m) c2 st2
      | PRes.fail (RunError.err _) c2 st2 =>
        PRes.fail (RunError.err "invalid assignment operator") c2 st2
      | PRes.ok assignOp c2 st2 =>
        if assignOp.value = ":=" ∨ assignOp.value = ":" then
          match parseExpression fuel ts c2 st2 with
          | PRes.fail e c3 st3 => PRes.fail e c3 st3
          | PRes.ok expr c3 st3 =>
            match evalNode d st3 expr with
            | Except.error e => PRes.fail e c3 st3
            | Except.ok res => PRes.ok () c3 (setSym st3 ident res)
        else PRes.fail (RunError.err "invalid assignment operator") c2 st2

/-- `Parser.parseStatement`: one token of lookahead past a leading
identifier decides assignment versus bare expression; a bare expression
is parsed and its node discarded without evaluation. -/
def parseStatement : Nat → List Token → SymT → Int → SymT → PRes Unit
  | 0, _, _, c, st => PRes.fail (RunError.panic "out of fuel") c st
  | fuel + 1, ts, d, c, st =>
    match nextToken ts c st with
    | PRes.fail e c1 st1 => PRes.fail e c1 st1
    | PRes.ok tok c1 st1 =>
      if tok.type = TokenType.IDENTIFIER then
        match nextToken ts c1 st1 with
        | PRes.fail e c2 st2 => PRes.fail e c2 st2
        | PRes.ok next c2 st2 =>
          if next.type = TokenType.ASSIGN_OP then
            parseAssignment fuel ts d (c2 - 2) st2
          else
            match parseExpression fuel ts (c2 - 2) st2 with
            | PRes.fail e c3 st3 => PRes.fail e c3 st3
            | PRes.ok _ c3 st3 => PRes.ok () c3 st3
      else
        match parseExpression fuel ts (c1 - 1) st1 with
        | PRes.fail e c3 st3 => PRes.fail e c3 st3
        | PRes.ok _ c3 st3 => PRes.ok () c3 st3

/-- `Parser.ParseApp`: the statement-and-semicolon loop; the
`no more tokens` error at the top of an iteration is normal termination. -/
def ParseApp : Nat → List Token → SymT → Int → SymT → PRes Unit
  | 0, _, _, c, st => PRes.fail (RunError.panic "out of fuel") c st
  | fuel + 1, ts, d, c, st =>
    match nextToken ts c st with
    | PRes.fail (RunError.err m) c1 st1 =>
      if m = "no more tokens" then PRes.ok () c1 st1
      else PRes.fail (RunError.err m) c1 st1
    | PRes.fail (RunError.panic m) c1 st1 => PRes.fail (RunError.panic m) c1 st1
    | PRes.ok _ c1 st1 =>
      match parseStatement fuel ts d (c1 - 1) st1 with
      | PRes.fail e c2 st2 => PRes.fail e c2 st2
      | PRes.ok _ c2 st2 =>
        match nextToken ts c2 st2 with
        | PRes.fail e c3 st3 => PRes.fail e c3 st3
        | PRes.ok t c3 st3 =>
          if t.type = TokenType.SEMICOLON then ParseApp fuel ts d c3 st3
          else PRes.fail (RunError.err "expected \x27;\x27") c3 st3

/-- End-to-end run as `main` drives it: tokenize, parse-and-evaluate, and
return the final symbol table. -/
def runProgram (fuel : Nat) (text : String) (d : SymT) : Except RunError SymT :=
  match Tokenize text with
  | Except.error e => Except.error e
  | Except.ok toks =>
    match ParseApp fuel toks d 0 [] with
    | PRes.ok _ _ st => Except.ok st
    | PRes.fail e _ _ => Except.error e

/- ## Spec-side window description

The specification describes the trailing window of `MA`/`HHV`/`LLV` as the
in-range, non-NaN values of `series[j]` for `j` in `[i-period+1, i]`; the
list below is that description, to be compared with the loop
implementations above. -/

/-- The non-NaN in-range values of the trailing window, in index order. -/
def windowVals (s : List FVal) (period : Int) (i : Nat) : List ℚ :=
  (windowIdx i period).filterMap (numAt s)

/-- The running-max update of the HHV loop on an accepted window value. -/
def maxF (m : FVal) (q : ℚ) : FVal :=
  match m with
  | FVal.nan => FVal.num q
  | FVal.num m0 => if m0 < q then FVal.num q else FVal.num m0

/-- The running-min update of the LLV loop on an accepted window value. -/
def minF (m : FVal) (q : ℚ) : FVal :=
  match m with
  | FVal.nan => FVal.num q
  | FVal.num m0 => if q < m0 then FVal.num q else FVal.num m0

/- ## Concrete scenario data -/

/-- The input series of the specification's scenarios. -/
def closeSeries : List FVal := toSeries [10, 12, 15, 14, 16, 18, 20, 19, 22, 25]

/-- The input data map binding `CLOSE` to the scenario series. -/
def closeData : List (String × List FVal) := [("CLOSE", closeSeries)]

/- ## Helper lemmas -/

/-- The sum-and-count fold of the MA loop over the guarded indices
computes the sum and length of the spec-side window values. -/
theorem foldl_maStep (s : List FVal) :
    ∀ (L : List Int) (a : ℚ) (c : Nat),
      L.foldl (maStep s) (a, c)
        = (a + (L.filterMap (numAt s)).sum, c + (L.filterMap (numAt s)).length) := by
  intro L
  induction L with
  | nil => intro a c; simp
  | cons j L ih =>
    intro a c
    rw [List.foldl_cons, List.filterMap_cons]
    cases h : numAt s j with
    | none =>
      rw [show maStep s (a, c) j = (a, c) from by unfold maStep; rw [h]]
      exact ih a c
    | some q =>
      rw [show maStep s (a, c) j = (a + q, c + 1) from by unfold maStep; rw [h]]
      rw [ih (a + q) (c + 1)]
      simp only [List.sum_cons, List.length_cons, Prod.mk.injEq]
      exact ⟨by ring, by omega⟩

/-- Membership in the loop's index range is membership in the integer
interval `[i-period+1, i]`. -/
theorem windowIdx_mem (i : Nat) (p : Int) (j : Int) :
    j ∈ windowIdx i p ↔ ((i : Int) - p + 1 ≤ j ∧ j ≤ (i : Int)) := by
  unfold windowIdx
  constructor
  · intro hj
    rcases List.mem_map.1 hj with ⟨k, hk, hkj⟩
    rw [List.mem_range] at hk
    omega
  · rintro ⟨h1, h2⟩
    refine List.mem_map.2 ⟨(j - ((i : Int) - p + 1)).toNat, List.mem_range.2 ?_, ?_⟩
    · omega
    · omega

/-- The window guard selects exactly the in-range non-NaN entries. -/
theorem numAt_eq_some (s : List FVal) (j : Int) (q : ℚ) :
    numAt s j = some q ↔ 0 ≤ j ∧ s[j.toNat]? = some (FVal.num q) := by
  unfold numAt valAt
  by_cases hj : 0 ≤ j ∧ j.toNat < s.length
  · simp only [hj, dif_pos]
    rw [List.getElem?_eq_getElem hj.2]
    simp only [List.get_eq_getElem]
    cases hv : s[j.toNat] <;> simp [hv, hj.1]
  · simp only [hj, dif_neg, not_false_iff]
    rw [not_and_or] at hj
    constructor
    · intro h; exact absurd h (by simp)
    · rintro ⟨h0, hget⟩
      rcases hj with hj | hj
      · exact absurd h0 hj
      · rw [List.getElem?_eq_none (by omega)] at hget
        exact absurd hget (by simp)

/-- The MA loop computes the spec-side window mean. -/
theorem maAt_eq_spec (s : List FVal) (p : Int) (i : Nat) :
    maAt s p i =
      if windowVals s p i = [] then FVal.nan
      else FVal.num ((windowVals s p i).sum / ((windowVals s p i).length : ℚ)) := by
  unfold maAt
  rw [show ((0 : ℚ), (0 : Nat)) = ((0 : ℚ), (0 : Nat)) from rfl, foldl_maStep]
  rw [show (windowIdx i p).filterMap (numAt s) = windowVals s p i from rfl]
  rcases hL : windowVals s p i with _ | ⟨q, L⟩
  · simp
  · simp

/-- Bounded lookup characterised by the optional index operator. -/
theorem valAt_eq_some (s : List FVal) (j : Int) (v : FVal) :
    valAt s j = some v ↔ 0 ≤ j ∧ s[j.toNat]? = some v := by
  unfold valAt
  by_cases hj : 0 ≤ j ∧ j.toNat < s.length
  · rw [dif_pos hj, List.getElem?_eq_getElem hj.2]
    simp [List.get_eq_getElem, hj.1]
  · rw [dif_neg hj]
    rw [not_and_or] at hj
    constructor
    · intro hx; exact absurd hx (by simp)
    · rintro ⟨h0, hget⟩
      rcases hj with hj | hj
      · exact absurd h0 hj
      · rw [List.getElem?_eq_none (by omega)] at hget
        exact absurd hget (by simp)

/-- The HHV loop folds the running max over the spec-side window values. -/
theorem foldl_hhvStep (s : List FVal) :
    ∀ (L : List Int) (m : FVal),
      L.foldl (hhvStep s) m = (L.filterMap (numAt s)).foldl maxF m := by
  intro L
  induction L with
  | nil => intro m; rfl
  | cons j L ih =>
    intro m
    rw [List.foldl_cons, List.filterMap_cons]
    cases h : numAt s j with
    | none =>
      rw [show hhvStep s m j = m from by unfold hhvStep; rw [h]]
      exact ih m
    | some q =>
      rw [show hhvStep s m j = maxF m q from by unfold hhvStep maxF; rw [h]]
      rw [List.foldl_cons]
      exact ih (maxF m q)

/-- The LLV loop folds the running min over the spec-side window values. -/
theorem foldl_llvStep (s : List FVal) :
    ∀ (L : List Int) (m : FVal),
      L.foldl (llvStep s) m = (L.filterMap (numAt s)).foldl minF m := by
  intro L
  induction L with
  | nil => intro m; rfl
  | cons j L ih =>
    intro m
    rw [List.foldl_cons, List.filterMap_cons]
    cases h : numAt s j with
    | none =>
      rw [show llvStep s m j = m from by unfold llvStep; rw [h]]
      exact ih m
    | some q =>
      rw [show llvStep s m j = minF m q from by unfold llvStep minF; rw [h]]
      rw [List.foldl_cons]
      exact ih (minF m q)

/-- Folding max and min over the same value list from related
accumulators keeps the max at or above the min. -/
theorem fold_max_min (L : List ℚ) :
    ∀ (x y : FVal),
      ((x = FVal.nan ∧ y = FVal.nan) ∨
        ∃ a b, x = FVal.num a ∧ y = FVal.num b ∧ b ≤ a) →
      ((L.foldl maxF x = FVal.nan ∧ L.foldl minF y = FVal.nan) ∨
        ∃ a b, L.foldl maxF x = FVal.num a ∧ L.foldl minF y = FVal.num b ∧ b ≤ a) := by
  induction L with
  | nil => intro x y hxy; exact hxy
  | cons q L ih =>
    intro x y hxy
    rw [List.foldl_cons, List.foldl_cons]
    apply ih
    rcases hxy with ⟨hx, hy⟩ | ⟨a, b, hx, hy, hab⟩
    · subst hx; subst hy
      exact Or.inr ⟨q, q, rfl, rfl, le_refl q⟩
    · subst hx; subst hy
      right
      have hmax : maxF (FVal.num a) q = FVal.num (if a < q then q else a) := by
        show (if a < q then FVal.num q else FVal.num a)
          = FVal.num (if a < q then q else a)
        split_ifs <;> rfl
      have hmin : minF (FVal.num b) q = FVal.num (if q < b then q else b) := by
        show (if q < b then FVal.num q else FVal.num b)
          = FVal.num (if q < b then q else b)
        split_ifs <;> rfl
      rw [hmax, hmin]
      refine ⟨_, _, rfl, rfl, ?_⟩
      split_ifs <;> linarith

/- ## Claim theorems on the windowed-function cores -/

/-- C1: for every series `S`, period `p` and index `i < len S`, `MA(S,p)[i]`
is the sum of the in-range non-NaN window values of `S` over
`[i-p+1, i]` divided by their count — NaN when that count is zero — and
`MA(S,1)[i]` is `S[i]` when that is not NaN, else NaN.  The first two
conjuncts certify that `windowIdx`/`numAt` are the claim's index interval
and its in-range non-NaN selection. -/
theorem c1_ma_adaptive_mean (S : List FVal) (p : Int) (i : Nat)
    (h : i < S.length) :
    (∀ j : Int, j ∈ windowIdx i p ↔ ((i : Int) - p + 1 ≤ j ∧ j ≤ (i : Int)))
    ∧ (∀ (j : Int) (q : ℚ),
        numAt S j = some q ↔ 0 ≤ j ∧ S[j.toNat]? = some (FVal.num q))
    ∧ (maCore S p)[i]? =
        some (if windowVals S p i = [] then FVal.nan
          else FVal.num ((windowVals S p i).sum / ((windowVals S p i).length : ℚ)))
    ∧ (maCore S 1)[i]? =
        some (match S[i]? with
          | some (FVal.num q) => FVal.num q
          | _ => FVal.nan) := by
  have hcore : ∀ p' : Int, (maCore S p')[i]? = some (maAt S p' i) := by
    intro p'
    rw [maCore, List.getElem?_map, List.getElem?_range h]
    rfl
  refine ⟨windowIdx_mem i p, numAt_eq_some S, ?_, ?_⟩
  · rw [hcore p, maAt_eq_spec]
  · rw [hcore 1, maAt_eq_spec]
    have hw : windowIdx i 1 = [(i : Int)] := by
      unfold windowIdx
      rw [show (1 : Int).toNat = 1 from rfl, show List.range 1 = [0] from rfl,
        List.map_cons, List.map_nil]
      norm_num
    have hget : S[i]? = some S[i] := List.getElem?_eq_getElem h
    cases hv : S[i] with
    | num q =>
      have hnum : numAt S (i : Int) = some q := by
        rw [numAt_eq_some]
        refine ⟨by omega, ?_⟩
        rw [show ((i : Int)).toNat = i from by omega, hget, hv]
      have hwv : windowVals S 1 i = [q] := by
        unfold windowVals
        rw [hw, List.filterMap_cons, hnum, List.filterMap_nil]
      rw [hwv, hget, hv]
      norm_num
    | nan =>
      have hnum : numAt S (i : Int) = none := by
        cases hx : numAt S (i : Int) with
        | none => rfl
        | some q =>
          rw [numAt_eq_some] at hx
          rw [show ((i : Int)).toNat = i from by omega, hget, hv] at hx
          exact absurd hx.2 (by simp)
      have hwv : windowVals S 1 i = [] := by
        unfold windowVals
        rw [hw, List.filterMap_cons, hnum, List.filterMap_nil]
      rw [hwv, hget, hv]
      norm_num

/-- C2: `REF(S,k)[i]` is `S[i-k]` when `i-k` is a valid index and NaN
otherwise, for any integer `k`; `REF(S,0)` is `S` itself; and for a
positive offset every index below it reads NaN.  The second conjunct
certifies that `valAt` is the claim's valid-index lookup. -/
theorem c2_ref_shift (S : List FVal) (k : Int) (i : Nat) (h : i < S.length) :
    ((refCore S k)[i]? =
      some (match valAt S ((i : Int) - k) with
        | some v => v
        | none => FVal.nan))
    ∧ (∀ v : FVal, valAt S ((i : Int) - k) = some v ↔
        0 ≤ (i : Int) - k ∧ S[((i : Int) - k).toNat]? = some v)
    ∧ refCore S 0 = S
    ∧ (0 < k → (i : Int) < k → (refCore S k)[i]? = some FVal.nan) := by
  have hcore : ∀ k' : Int, (refCore S k')[i]? = some (refAt S k' i) := by
    intro k'
    rw [refCore, List.getElem?_map, List.getElem?_range h]
    rfl
  refine ⟨?_, fun v => valAt_eq_some S ((i : Int) - k) v, ?_, ?_⟩
  · rw [hcore k]
    unfold refAt valAt
    by_cases hc : k ≤ (i : Int) ∧ (i : Int) - k < (S.length : Int)
        ∧ 0 ≤ (i : Int) - k
    · rw [dif_pos hc, dif_pos ⟨hc.2.2, by omega⟩]
    · rw [dif_neg hc, dif_neg (fun hx => hc ⟨by omega, by omega, hx.1⟩)]
  · have hlen : (refCore S 0).length = S.length := by
      unfold refCore
      simp
    have hval : ∀ n : Nat, n < S.length → (refCore S 0)[n]? = some (refAt S 0 n) := by
      intro n hn
      unfold refCore
      rw [List.getElem?_map, List.getElem?_range hn]
      rfl
    apply List.ext_getElem?
    intro n
    by_cases hn : n < S.length
    · rw [hval n hn, List.getElem?_eq_getElem hn]
      unfold refAt
      rw [dif_pos ⟨by omega, by omega, by omega⟩]
      simp only [List.get_eq_getElem]
      congr 1
    · rw [List.getElem?_eq_none (by omega), List.getElem?_eq_none (by omega)]
  · intro hk hik
    rw [hcore k]
    unfold refAt
    rw [dif_neg (fun hx => absurd hx.1 (by omega))]

/-- C8: the highest value in a trailing window is at least the lowest
value in the same window whenever neither output is NaN. -/
theorem c8_hhv_ge_llv (S : List FVal) (k : Int) (i : Nat) (a b : ℚ)
    (hk : 1 ≤ k)
    (hh : (hhvCore S k)[i]? = some (FVal.num a))
    (hl : (llvCore S k)[i]? = some (FVal.num b)) : b ≤ a := by
  have hi : i < S.length := by
    by_contra hni
    rw [hhvCore, List.getElem?_map] at hh
    rw [List.getElem?_eq_none (by simpa using Nat.le_of_not_lt hni)] at hh
    exact absurd hh (by simp)
  have hcoreh : (hhvCore S k)[i]? = some (hhvAt S k i) := by
    rw [hhvCore, List.getElem?_map, List.getElem?_range hi]
    rfl
  have hcorel : (llvCore S k)[i]? = some (llvAt S k i) := by
    rw [llvCore, List.getElem?_map, List.getElem?_range hi]
    rfl
  rw [hcoreh] at hh
  rw [hcorel] at hl
  have hh1 : (windowVals S k i).foldl maxF FVal.nan = FVal.num a := by
    unfold windowVals
    rw [← foldl_hhvStep]
    exact Option.some.inj hh
  have hl1 : (windowVals S k i).foldl minF FVal.nan = FVal.num b := by
    unfold windowVals
    rw [← foldl_llvStep]
    exact Option.some.inj hl
  rcases fold_max_min (windowVals S k i) FVal.nan FVal.nan
      (Or.inl ⟨rfl, rfl⟩) with ⟨hx, _⟩ | ⟨a', b', hx, hy, hab⟩
  · rw [hh1] at hx
    exact absurd hx (by simp)
  · rw [hh1] at hx
    rw [hl1] at hy
    cases hx
    cases hy
    exact hab

/- ## Division by zero (`applyOperator "/"`) -/

/-- The division guard fires exactly on the number zero. -/
theorem isZeroF_iff (v : FVal) : isZeroF v = true ↔ v = FVal.num 0 := by
  cases v with
  | nan => simp [isZeroF]
  | num q => simp [isZeroF]

/-- One step of `applyOp1` for `/`, spelled out. -/
theorem applyOp1_div (l r : FVal) :
    applyOp1 "/" l r =
      if isZeroF r then Except.error (RunError.panic "除数为零")
      else Except.ok (divF l r) := rfl

/-- The index loop of elementwise division: it panics iff some divisor
entry is the number zero, and otherwise returns the pointwise quotients. -/
theorem div_loop (left : List FVal) :
    ∀ right : List FVal, left.length = right.length →
      ((∃ i : Nat, right[i]? = some (FVal.num 0)) →
        applyOpList "/" (left.zip right)
          = Except.error (RunError.panic "除数为零"))
      ∧ ((∀ i : Nat, right[i]? ≠ some (FVal.num 0)) →
        applyOpList "/" (left.zip right)
          = Except.ok (List.zipWith divF left right)) := by
  induction left with
  | nil =>
    intro right h
    have : right = [] := by
      cases right with
      | nil => rfl
      | cons r rs => simp at h
    subst this
    constructor
    · rintro ⟨i, hi⟩
      simp at hi
    · intro _
      rfl
  | cons l ls ih =>
    intro right h
    cases right with
    | nil => simp at h
    | cons r rs =>
      have hlen : ls.length = rs.length := by
        simp at h
        omega
      have hloop :
          applyOpList "/" ((l :: ls).zip (r :: rs))
            = (match applyOp1 "/" l r with
              | Except.error e => Except.error e
              | Except.ok v =>
                match applyOpList "/" (ls.zip rs) with
                | Except.error e => Except.error e
                | Except.ok vs => Except.ok (v :: vs)) := rfl
      by_cases hz : isZeroF r
      · have hstep : applyOp1 "/" l r = Except.error (RunError.panic "除数为零") := by
          rw [applyOp1_div, if_pos hz]
        constructor
        · intro _
          rw [hloop, hstep]
        · intro hno
          have hr : r = FVal.num 0 := (isZeroF_iff r).1 hz
          have h0 := hno 0
          rw [List.getElem?_cons_zero, hr] at h0
          exact absurd rfl h0
      · have hstep : applyOp1 "/" l r = Except.ok (divF l r) := by
          rw [applyOp1_div, if_neg hz]
        constructor
        · rintro ⟨i, hi⟩
          cases i with
          | zero =>
            rw [List.getElem?_cons_zero] at hi
            have : r = FVal.num 0 := by
              exact Option.some.inj hi
            rw [this] at hz
            exact absurd ((isZeroF_iff (FVal.num 0)).2 rfl) hz
          | succ i =>
            rw [List.getElem?_cons_succ] at hi
            have hrec := (ih rs hlen).1 ⟨i, hi⟩
            rw [hloop, hstep, hrec]
        · intro hno
          have hrec := (ih rs hlen).2 (fun i => by
            have := hno (i + 1)
            rwa [List.getElem?_cons_succ] at this)
          rw [hloop, hstep, hrec]
          rfl

/- ## Claim theorems on the evaluator -/

/-- C4: for equal-length operand series, elementwise `/` aborts with the
division-by-zero panic exactly when some index of the divisor holds the
number zero; with no zero divisor it returns the pointwise quotients. -/
theorem c4_division_by_zero (left right : List FVal)
    (h : left.length = right.length) :
    ((∃ i : Nat, right[i]? = some (FVal.num 0)) →
      applyOperator "/" left right = Except.error (RunError.panic "除数为零"))
    ∧ ((∀ i : Nat, right[i]? ≠ some (FVal.num 0)) →
      applyOperator "/" left right = Except.ok (List.zipWith divF left right)) := by
  have hd := div_loop left right h
  constructor
  · intro hex
    rw [applyOperator, if_pos h]
    exact hd.1 hex
  · intro hno
    rw [applyOperator, if_pos h]
    exact hd.2 hno

/-- C6: each of MA, REF, HHV, LLV fails with the two-argument error on
any other argument count, and the scenario `V1:=MA(CLOSE);` fails without
populating `V1` in the symbol table. -/
theorem c6_exactly_two_arguments (f : String)
    (hf : f ∈ ["MA", "REF", "HHV", "LLV"])
    (d st : List (String × List FVal)) (ch : List Node) (res : List FVal)
    (h : ch.length ≠ 2) :
    evalNode d st (Node.mk NodeType.FUNCTION f ch res)
      = Except.error (RunError.err (f ++ " 函数需要两个参数"))
    ∧ runProgram 100 "V1:=MA(CLOSE);" closeData
        = Except.error (RunError.err "MA 函数需要两个参数")
    ∧ lookupS (ParseApp 100
        [Token.mk TokenType.IDENTIFIER "V1", Token.mk TokenType.ASSIGN_OP ":=",
          Token.mk TokenType.IDENTIFIER "MA", Token.mk TokenType.LPAREN "(",
          Token.mk TokenType.IDENTIFIER "CLOSE", Token.mk TokenType.RPAREN ")",
          Token.mk TokenType.SEMICOLON ";"] closeData 0 []).symAfter "V1"
      = none := by
  refine ⟨?_, by with_unfolding_all rfl, by with_unfolding_all rfl⟩
  fin_cases hf <;>
    rcases ch with _ | ⟨a, _ | ⟨b, _ | ⟨c, t⟩⟩⟩ <;> simp_all [evalNode]

/-- C7: the scenario program `V1:=(1+CLOSE)*2;` over the scenario CLOSE
series yields the expected V1, with the scalar literal broadcast to the
length of an entry of the input map. -/
theorem c7_scenario_arithmetic :
    runProgram 100 "V1:=(1+CLOSE)*2;" closeData
      = Except.ok [("V1", toSeries [22, 26, 32, 30, 34, 38, 42, 40, 46, 52])]
    ∧ evalNode closeData [] (Node.mk NodeType.NUMBER "1" [] [])
        = Except.ok (List.replicate (dataLen closeData) (FVal.num 1))
    ∧ dataLen closeData = 10 :=
  ⟨by with_unfolding_all rfl, by with_unfolding_all rfl, rfl⟩

/-- C9: the second argument of MA/REF/HHV/LLV is consumed only through
its literal token text (never evaluated as a series), so the evaluator's
output depends on nothing else of that argument; `1+1` and `2.0` as
second arguments fail the non-integer-argument error while `(2)` is
accepted because the parentheses collapse to the number node. -/
theorem c9_second_argument_literal :
    (∀ f ∈ (["MA", "REF", "HHV", "LLV"] : List String),
      ∀ (d st : List (String × List FVal)) (a0 a1 a1' : Node)
        (res res' : List FVal),
        a1.value = a1'.value →
        evalNode d st (Node.mk NodeType.FUNCTION f [a0, a1] res)
          = evalNode d st (Node.mk NodeType.FUNCTION f [a0, a1'] res'))
    ∧ runProgram 100 "V1:=MA(CLOSE,1+1);" closeData
        = Except.error (RunError.err "MA 函数的第二个参数必须是整数")
    ∧ runProgram 100 "V1:=MA(CLOSE,2.0);" closeData
        = Except.error (RunError.err "MA 函数的第二个参数必须是整数")
    ∧ runProgram 100 "V1:=MA(CLOSE,(2));" closeData
        = Except.ok [("V1",
            toSeries [10, 11, 27/2, 29/2, 15, 17, 19, 39/2, 41/2, 47/2])] := by
  refine ⟨?_, by with_unfolding_all rfl, by with_unfolding_all rfl,
    by with_unfolding_all rfl⟩
  intro f hf d st a0 a1 a1' res res' hv
  fin_cases hf <;> simp [evalNode, hv]

/-- C10: MA accepts a non-positive period with no error and returns an
all-NaN series of the input's length (the trailing window is empty at
every index), while HHV and LLV reject such a period with the
positive-integer error. -/
theorem c10_nonpositive_period (S : List FVal) (p : Int) (hp : p ≤ 0)
    (d st : List (String × List FVal)) (a0 a1 : Node) (res : List FVal)
    (s : List FVal) (hs : evalNode d st a0 = Except.ok s)
    (ha : goAtoi a1.value = some p) :
    maCore S p = List.replicate S.length FVal.nan
    ∧ evalNode d st (Node.mk NodeType.FUNCTION "MA" [a0, a1] res)
        = Except.ok (maCore s p)
    ∧ evalNode d st (Node.mk NodeType.FUNCTION "HHV" [a0, a1] res)
        = Except.error (RunError.err "HHV 函数的第二个参数必须是正整数")
    ∧ evalNode d st (Node.mk NodeType.FUNCTION "LLV" [a0, a1] res)
        = Except.error (RunError.err "LLV 函数的第二个参数必须是正整数") := by
  have hall : ∀ i : Nat, maAt S p i = FVal.nan := by
    intro i
    unfold maAt windowIdx
    rw [show p.toNat = 0 from by omega]
    rfl
  refine ⟨?_, ?_, ?_, ?_⟩
  · unfold maCore
    rw [List.eq_replicate_iff]
    refine ⟨by simp, ?_⟩
    intro b hb
    rcases List.mem_map.1 hb with ⟨i, _, rfl⟩
    exact hall i
  · simp [evalNode, hs, ha]
  · simp [evalNode, hs, ha]
    omega
  · simp [evalNode, hs, ha]
    omega

/- ## Parser-level lemmas -/

/-- Transport a symbol-table fact along an evaluation equation. -/
theorem pres_rw {α : Type} {r r' : PRes α} {st : SymT}
    (h : r.symAfter = st) (hr : r = r') : r'.symAfter = st := hr ▸ h

/-- `nextToken` never touches the symbol table. -/
theorem nextToken_symAfter (ts : List Token) (c : Int) (st : SymT) :
    (nextToken ts c st).symAfter = st := by
  unfold nextToken
  split
  · rfl
  · split <;> rfl

/-- `consumeOperator` never touches the symbol table. -/
theorem consumeOperator_symAfter (ts : List Token) (c : Int) (st : SymT) :
    (consumeOperator ts c st).symAfter = st := by
  unfold consumeOperator
  split
  · next e c1 st1 heq =>
    have hst : st1 = st := pres_rw (nextToken_symAfter ts c st) heq
    exact hst
  · next t c1 st1 heq =>
    have hst : st1 = st := pres_rw (nextToken_symAfter ts c st) heq
    split <;> exact hst

/-- Reading a known token at the cursor: the step succeeds, advances the
cursor by one, and the remaining stream drops that token. -/
theorem nextToken_drop (ts : List Token) (c : Int) (st : SymT) (t : Token)
    (rest : List Token) (hc : 0 ≤ c) (h : ts.drop c.toNat = t :: rest) :
    nextToken ts c st = PRes.ok t (c + 1) st
    ∧ ts.drop (c + 1).toNat = rest := by
  have hlen : c.toNat < ts.length := by
    have hlen2 := congrArg List.length h
    rw [List.length_drop] at hlen2
    simp only [List.length_cons] at hlen2
    omega
  have hget : ts[c.toNat]? = some t := by
    have h0 : (ts.drop c.toNat)[0]? = some t := by rw [h]; simp
    rw [List.getElem?_drop] at h0
    simpa using h0
  constructor
  · unfold nextToken
    rw [if_neg (by omega)]
    unfold tokenAt
    rw [if_pos hc, hget]
  · have ht : (c + 1).toNat = c.toNat + 1 := by omega
    rw [ht, ← List.drop_drop, h]
    rfl

/-- None of the expression-level parse functions writes the symbol table:
parsing only moves the cursor (evaluation happens in `parseAssignment`
alone). -/
theorem parse_symAfter (fuel : Nat) :
    (∀ (ts : List Token) (c : Int) (st : SymT),
      (parseExpression fuel ts c st).symAfter = st)
    ∧ (∀ (ts : List Token) (left : Node) (c : Int) (st : SymT),
      (parseExpressionLoop fuel ts left c st).symAfter = st)
    ∧ (∀ (ts : List Token) (c : Int) (st : SymT),
      (parseTerm fuel ts c st).symAfter = st)
    ∧ (∀ (ts : List Token) (left : Node) (c : Int) (st : SymT),
      (parseTermLoop fuel ts left c st).symAfter = st)
    ∧ (∀ (ts : List Token) (c : Int) (st : SymT),
      (parseFactor fuel ts c st).symAfter = st)
    ∧ (∀ (ts : List Token) (name : String) (c : Int) (st : SymT),
      (parseFunctionCall fuel ts name c st).symAfter = st)
    ∧ (∀ (ts : List Token) (name : String) (args : List Node) (c : Int) (st : SymT),
      (parseFunctionCallLoop fuel ts name args c st).symAfter = st) := by
  induction fuel with
  | zero =>
    exact ⟨fun _ _ _ => rfl, fun _ _ _ _ => rfl, fun _ _ _ => rfl,
      fun _ _ _ _ => rfl, fun _ _ _ => rfl, fun _ _ _ _ => rfl,
      fun _ _ _ _ _ => rfl⟩
  | succ fuel ih =>
    obtain ⟨ihE, ihEL, ihT, ihTL, ihF, ihFC, ihFCL⟩ := ih
    refine ⟨?_, ?_, ?_, ?_, ?_, ?_, ?_⟩
    · intro ts c st
      simp only [parseExpression]
      split
      · next e c1 st1 heq =>
        have hst : st1 = st := pres_rw (ihT ts c st) heq
        exact hst
      · next left c1 st1 heq =>
        have hst : st1 = st := pres_rw (ihT ts c st) heq
        rw [hst]
        exact ihEL ts left c1 st
    · intro ts left c st
      simp only [parseExpressionLoop]
      split
      · next m c1 st1 heq =>
        have hst : st1 = st := pres_rw (consumeOperator_symAfter ts c st) heq
        exact hst
      · next m c1 st1 heq =>
        have hst : st1 = st := pres_rw (consumeOperator_symAfter ts c st) heq
        exact hst
      · next op c1 st1 heq =>
        have hst : st1 = st := pres_rw (consumeOperator_symAfter ts c st) heq
        split
        · split
          · next e c2 st2 heq2 =>
            have hst2 : st2 = st := hst ▸ pres_rw (ihT ts c1 st1) heq2
            exact hst2
          · next right c2 st2 heq2 =>
            have hst2 : st2 = st := hst ▸ pres_rw (ihT ts c1 st1) heq2
            rw [hst2]
            exact ihEL ts _ c2 st
        · exact hst
    · intro ts c st
      simp only [parseTerm]
      split
      · next e c1 st1 heq =>
        have hst : st1 = st := pres_rw (ihF ts c st) heq
        exact hst
      · next left c1 st1 heq =>
        have hst : st1 = st := pres_rw (ihF ts c st) heq
        rw [hst]
        exact ihTL ts left c1 st
    · intro ts left c st
      simp only [parseTermLoop]
      split
      · next m c1 st1 heq =>
        have hst : st1 = st := pres_rw (consumeOperator_symAfter ts c st) heq
        exact hst
      · next m c1 st1 heq =>
        have hst : st1 = st := pres_rw (consumeOperator_symAfter ts c st) heq
        exact hst
      · next op c1 st1 heq =>
        have hst : st1 = st := pres_rw (consumeOperator_symAfter ts c st) heq
        split
        · split
          · next e c2 st2 heq2 =>
            have hst2 : st2 = st := hst ▸ pres_rw (ihF ts c1 st1) heq2
            exact hst2
          · next right c2 st2 heq2 =>
            have hst2 : st2 = st := hst ▸ pres_rw (ihF ts c1 st1) heq2
            rw [hst2]
            exact ihTL ts _ c2 st
        · exact hst
    · intro ts c st
      simp only [parseFactor]
      split
      · next e c1 st1 heq =>
        have hst : st1 = st := pres_rw (nextToken_symAfter ts c st) heq
        exact hst
      · next tok c1 st1 heq =>
        have hst : st1 = st := pres_rw (nextToken_symAfter ts c st) heq
        split
        · exact hst
        · split
          · next e c2 st2 heq2 =>
            have hst2 : st2 = st := hst ▸ pres_rw (ihE ts c1 st1) heq2
            exact hst2
          · next expr c2 st2 heq2 =>
            have hst2 : st2 = st := hst ▸ pres_rw (ihE ts c1 st1) heq2
            split
            · next m c3 st3 heq3 =>
              have hst3 : st3 = st := hst2 ▸ pres_rw (nextToken_symAfter ts c2 st2) heq3
              exact hst3
            · next m c3 st3 heq3 =>
              have hst3 : st3 = st := hst2 ▸ pres_rw (nextToken_symAfter ts c2 st2) heq3
              exact hst3
            · next cp c3 st3 heq3 =>
              have hst3 : st3 = st := hst2 ▸ pres_rw (nextToken_symAfter ts c2 st2) heq3
              split <;> exact hst3
        · split
          · next e c2 st2 heq2 =>
            have hst2 : st2 = st := hst ▸ pres_rw (nextToken_symAfter ts c1 st1) heq2
            exact hst2
          · next nx c2 st2 heq2 =>
            have hst2 : st2 = st := hst ▸ pres_rw (nextToken_symAfter ts c1 st1) heq2
            split
            · rw [hst2]
              exact ihFC ts _ (c2 - 1) st
            · split
              · exact hst2
              · split <;> exact hst2
        · exact hst
    · intro ts name c st
      simp only [parseFunctionCall]
      split
      · next m c1 st1 heq =>
        have hst : st1 = st := pres_rw (nextToken_symAfter ts c st) heq
        exact hst
      · next m c1 st1 heq =>
        have hst : st1 = st := pres_rw (nextToken_symAfter ts c st) heq
        exact hst
      · next lp c1 st1 heq =>
        have hst : st1 = st := pres_rw (nextToken_symAfter ts c st) heq
        split
        · rw [hst]
          exact ihFCL ts name [] c1 st
        · exact hst
    · intro ts name args c st
      simp only [parseFunctionCallLoop]
      split
      · next e c1 st1 heq =>
        have hst : st1 = st := pres_rw (ihE ts c st) heq
        exact hst
      · next arg c1 st1 heq =>
        have hst : st1 = st := pres_rw (ihE ts c st) heq
        split
        · next e c2 st2 heq2 =>
          have hst2 : st2 = st := hst ▸ pres_rw (nextToken_symAfter ts c1 st1) heq2
          exact hst2
        · next nx c2 st2 heq2 =>
          have hst2 : st2 = st := hst ▸ pres_rw (nextToken_symAfter ts c1 st1) heq2
          split
          · exact hst2
          · split
            · rw [hst2]
              exact ihFCL ts name (args ++ [arg]) c2 st
            · exact hst2

/- ## Claim theorems on the parser -/

/-- C5: a statement that assigns to one of the reserved words always
fails with the reserved-word error before anything is evaluated, leaving
the symbol table unchanged; concretely the run of `CLOSE:=1;` fails with
that error. -/
theorem c5_reserved_word_assignment (fuel : Nat) (ts : List Token) (d st : SymT)
    (c : Int) (w v : String) (rest : List Token)
    (hc : 0 ≤ c) (hw : w ∈ reservedWords)
    (htk : ts.drop c.toNat
      = Token.mk TokenType.IDENTIFIER w :: Token.mk TokenType.ASSIGN_OP v :: rest) :
    parseStatement (fuel + 1) ts d c st
      = PRes.fail (RunError.err ("\x27" ++ w ++ "\x27 is a reserved word")) (c + 1) st
    ∧ (parseStatement (fuel + 1) ts d c st).symAfter = st
    ∧ runProgram 100 "CLOSE:=1;" closeData
      = Except.error (RunError.err "\x27CLOSE\x27 is a reserved word") := by
  obtain ⟨hn1, hd1⟩ := nextToken_drop ts c st _ _ hc htk
  obtain ⟨hn2, hd2⟩ := nextToken_drop ts (c + 1) st _ _ (by omega) hd1
  have harith : c + 1 + 1 - 2 = c := by ring
  have hmain : parseStatement (fuel + 1) ts d c st
      = PRes.fail (RunError.err ("\x27" ++ w ++ "\x27 is a reserved word")) (c + 1) st := by
    simp only [parseStatement, hn1, hn2, harith]
    simp only [parseAssignment, parseIdentifier, hn1]
    simp [hw]
  exact ⟨hmain, by rw [hmain]; rfl, by with_unfolding_all rfl⟩

/-- C3 as stated is false on the code: the whole run of the bare
statement `1.2.3;` succeeds with an empty symbol table, even though
evaluating its expression node fails with the numeric-parse error — so an
evaluation-time failure inside a bare expression does not surface. -/
theorem c3_counterexample :
    runProgram 100 "1.2.3;" closeData = Except.ok []
    ∧ evalNode closeData [] (Node.mk NodeType.NUMBER "1.2.3" [] [])
      = Except.error
          (RunError.err "strconv.ParseFloat: parsing 1.2.3: invalid syntax") :=
  ⟨by with_unfolding_all rfl, by with_unfolding_all rfl⟩

/-- C3 amended: a bare expression statement (an identifier not followed
by an assignment operator) is parsed as a legal statement, but its
expression is only parsed, never evaluated: the node is dropped, no
symbol-table entry is created, and an evaluation-time failure inside the
expression (such as a malformed numeric literal) does not surface — the
run succeeds. -/
theorem c3_bare_expression (fuel : Nat) (ts : List Token) (d st : SymT)
    (c : Int) (t1 t2 : Token) (rest : List Token)
    (hc : 0 ≤ c) (h1 : t1.type = TokenType.IDENTIFIER)
    (h2 : t2.type ≠ TokenType.ASSIGN_OP)
    (htk : ts.drop c.toNat = t1 :: t2 :: rest) :
    (parseStatement (fuel + 1) ts d c st).symAfter = st
    ∧ runProgram 100 "V1:=1;V2:=2;V1+V2;" closeData
        = Except.ok [("V1", List.replicate 10 (FVal.num 1)),
            ("V2", List.replicate 10 (FVal.num 2))]
    ∧ runProgram 100 "1.2.3;" closeData = Except.ok [] := by
  obtain ⟨hn1, hd1⟩ := nextToken_drop ts c st _ _ hc htk
  obtain ⟨hn2, hd2⟩ := nextToken_drop ts (c + 1) st _ _ (by omega) hd1
  have harith : c + 1 + 1 - 2 = c := by ring
  refine ⟨?_, by with_unfolding_all rfl, by with_unfolding_all rfl⟩
  simp only [parseStatement, hn1, hn2, harith, h1, if_pos, if_neg h2]
  split
  · next e c3 st3 heq =>
    have hst : st3 = st := pres_rw ((parse_symAfter fuel).1 ts c st) heq
    exact hst
  · next u c3 st3 heq =>
    have hst : st3 = st := pres_rw ((parse_symAfter fuel).1 ts c st) heq
    exact hst

/- ## Witnesses -/

/-- Witness for C1 at the one-point series `[1]`, period 1, index 0. -/
theorem c1_witness :
    0 < (toSeries [1]).length
    ∧ ((∀ j : Int, j ∈ windowIdx 0 1
          ↔ (((0 : Nat) : Int) - 1 + 1 ≤ j ∧ j ≤ ((0 : Nat) : Int)))
      ∧ (∀ (j : Int) (q : ℚ), numAt (toSeries [1]) j = some q
          ↔ 0 ≤ j ∧ (toSeries [1])[j.toNat]? = some (FVal.num q))
      ∧ (maCore (toSeries [1]) 1)[(0 : Nat)]? =
          some (if windowVals (toSeries [1]) 1 0 = [] then FVal.nan
            else FVal.num ((windowVals (toSeries [1]) 1 0).sum
              / ((windowVals (toSeries [1]) 1 0).length : ℚ)))
      ∧ (maCore (toSeries [1]) 1)[(0 : Nat)]? =
          some (match (toSeries [1])[(0 : Nat)]? with
            | some (FVal.num q) => FVal.num q
            | _ => FVal.nan)) :=
  ⟨by decide, c1_ma_adaptive_mean (toSeries [1]) 1 0 (by decide)⟩

/-- Witness for C2 at the one-point series `[1]`, offset 0, index 0. -/
theorem c2_witness :
    0 < (toSeries [1]).length
    ∧ (((refCore (toSeries [1]) 0)[(0 : Nat)]? =
        some (match valAt (toSeries [1]) (((0 : Nat) : Int) - 0) with
          | some v => v
          | none => FVal.nan))
      ∧ (∀ v : FVal, valAt (toSeries [1]) (((0 : Nat) : Int) - 0) = some v ↔
          0 ≤ ((0 : Nat) : Int) - 0
          ∧ (toSeries [1])[(((0 : Nat) : Int) - 0).toNat]? = some v)
      ∧ refCore (toSeries [1]) 0 = toSeries [1]
      ∧ (0 < (0 : Int) → ((0 : Nat) : Int) < 0 →
          (refCore (toSeries [1]) 0)[(0 : Nat)]? = some FVal.nan)) :=
  ⟨by decide, c2_ref_shift (toSeries [1]) 0 0 (by decide)⟩

/-- Witness for C4 at `[4] / [2]`. -/
theorem c4_witness :
    [FVal.num 4].length = [FVal.num 2].length
    ∧ (((∃ i : Nat, [FVal.num 2][i]? = some (FVal.num 0)) →
        applyOperator "/" [FVal.num 4] [FVal.num 2]
          = Except.error (RunError.panic "除数为零"))
      ∧ ((∀ i : Nat, [FVal.num 2][i]? ≠ some (FVal.num 0)) →
        applyOperator "/" [FVal.num 4] [FVal.num 2]
          = Except.ok (List.zipWith divF [FVal.num 4] [FVal.num 2]))) :=
  ⟨by decide, c4_division_by_zero [FVal.num 4] [FVal.num 2] (by decide)⟩

/-- Witness for C5 on the token stream of `CLOSE:=1;`. -/
theorem c5_witness :
    (0 : Int) ≤ 0
    ∧ "CLOSE" ∈ reservedWords
    ∧ ([Token.mk TokenType.IDENTIFIER "CLOSE", Token.mk TokenType.ASSIGN_OP ":=",
        Token.mk TokenType.NUMBER "1", Token.mk TokenType.SEMICOLON ";"]).drop
          (0 : Int).toNat
      = Token.mk TokenType.IDENTIFIER "CLOSE" :: Token.mk TokenType.ASSIGN_OP ":="
          :: [Token.mk TokenType.NUMBER "1", Token.mk TokenType.SEMICOLON ";"]
    ∧ (parseStatement (0 + 1)
        [Token.mk TokenType.IDENTIFIER "CLOSE", Token.mk TokenType.ASSIGN_OP ":=",
          Token.mk TokenType.NUMBER "1", Token.mk TokenType.SEMICOLON ";"] [] 0 []
        = PRes.fail
            (RunError.err ("\x27" ++ "CLOSE" ++ "\x27 is a reserved word")) (0 + 1) []
      ∧ (parseStatement (0 + 1)
          [Token.mk TokenType.IDENTIFIER "CLOSE", Token.mk TokenType.ASSIGN_OP ":=",
            Token.mk TokenType.NUMBER "1", Token.mk TokenType.SEMICOLON ";"]
          [] 0 []).symAfter = []
      ∧ runProgram 100 "CLOSE:=1;" closeData
        = Except.error (RunError.err "\x27CLOSE\x27 is a reserved word")) :=
  ⟨by decide, by decide, by decide,
    c5_reserved_word_assignment 0
      [Token.mk TokenType.IDENTIFIER "CLOSE", Token.mk TokenType.ASSIGN_OP ":=",
        Token.mk TokenType.NUMBER "1", Token.mk TokenType.SEMICOLON ";"]
      [] [] 0 "CLOSE" ":="
      [Token.mk TokenType.NUMBER "1", Token.mk TokenType.SEMICOLON ";"]
      (by decide) (by decide) (by decide)⟩

/-- Witness for C6 with `MA` applied to zero arguments. -/
theorem c6_witness :
    "MA" ∈ (["MA", "REF", "HHV", "LLV"] : List String)
    ∧ (([] : List Node).length ≠ 2)
    ∧ (evalNode [] [] (Node.mk NodeType.FUNCTION "MA" [] [])
        = Except.error (RunError.err ("MA" ++ " 函数需要两个参数"))
      ∧ runProgram 100 "V1:=MA(CLOSE);" closeData
          = Except.error (RunError.err "MA 函数需要两个参数")
      ∧ lookupS (ParseApp 100
          [Token.mk TokenType.IDENTIFIER "V1", Token.mk TokenType.ASSIGN_OP ":=",
            Token.mk TokenType.IDENTIFIER "MA", Token.mk TokenType.LPAREN "(",
            Token.mk TokenType.IDENTIFIER "CLOSE", Token.mk TokenType.RPAREN ")",
            Token.mk TokenType.SEMICOLON ";"] closeData 0 []).symAfter "V1"
        = none) :=
  ⟨by decide, by decide,
    c6_exactly_two_arguments "MA" (by decide) [] [] [] [] (by decide)⟩

/-- Witness for C8 at the series `[1, 2]`, window 2, index 1. -/
theorem c8_witness :
    (1 : Int) ≤ 2
    ∧ (hhvCore (toSeries [1, 2]) 2)[(1 : Nat)]? = some (FVal.num 2)
    ∧ (llvCore (toSeries [1, 2]) 2)[(1 : Nat)]? = some (FVal.num 1)
    ∧ (1 : ℚ) ≤ 2 := by
  have hh : (hhvCore (toSeries [1, 2]) 2)[(1 : Nat)]? = some (FVal.num 2) := by
    with_unfolding_all rfl
  have hl : (llvCore (toSeries [1, 2]) 2)[(1 : Nat)]? = some (FVal.num 1) := by
    with_unfolding_all rfl
  exact ⟨by decide, hh, hl, c8_hhv_ge_llv (toSeries [1, 2]) 2 1 2 1 (by decide) hh hl⟩

/-- Witness for C9's invariance conjunct: two MA calls whose second
arguments share the token text `2` but differ in every other field
evaluate identically. -/
theorem c9_witness :
    (Node.mk NodeType.NUMBER "2" [] []).value
      = (Node.mk NodeType.EXPRESSION "2" [Node.mk NodeType.NUMBER "7" [] []]
          [FVal.nan]).value
    ∧ evalNode closeData []
        (Node.mk NodeType.FUNCTION "MA"
          [Node.mk NodeType.VARIABLE "CLOSE" [] [],
            Node.mk NodeType.NUMBER "2" [] []] [])
      = evalNode closeData []
        (Node.mk NodeType.FUNCTION "MA"
          [Node.mk NodeType.VARIABLE "CLOSE" [] [],
            Node.mk NodeType.EXPRESSION "2" [Node.mk NodeType.NUMBER "7" [] []]
              [FVal.nan]] [FVal.nan]) :=
  ⟨rfl,
    c9_second_argument_literal.1 "MA" (by decide) closeData []
      (Node.mk NodeType.VARIABLE "CLOSE" [] [])
      (Node.mk NodeType.NUMBER "2" [] [])
      (Node.mk NodeType.EXPRESSION "2" [Node.mk NodeType.NUMBER "7" [] []] [FVal.nan])
      [] [FVal.nan] rfl⟩

/-- Witness for C10 at period 0 over the series `[5]`. -/
theorem c10_witness :
    (0 : Int) ≤ 0
    ∧ evalNode closeData [] (Node.mk NodeType.NUMBER "1" [] [])
        = Except.ok (List.replicate 10 (FVal.num 1))
    ∧ goAtoi (Node.mk NodeType.NUMBER "0" [] []).value = some 0
    ∧ (maCore (toSeries [5]) 0 = List.replicate (toSeries [5]).length FVal.nan
      ∧ evalNode closeData []
          (Node.mk NodeType.FUNCTION "MA"
            [Node.mk NodeType.NUMBER "1" [] [], Node.mk NodeType.NUMBER "0" [] []] [])
          = Except.ok (maCore (List.replicate 10 (FVal.num 1)) 0)
      ∧ evalNode closeData []
          (Node.mk NodeType.FUNCTION "HHV"
            [Node.mk NodeType.NUMBER "1" [] [], Node.mk NodeType.NUMBER "0" [] []] [])
          = Except.error (RunError.err "HHV 函数的第二个参数必须是正整数")
      ∧ evalNode closeData []
          (Node.mk NodeType.FUNCTION "LLV"
            [Node.mk NodeType.NUMBER "1" [] [], Node.mk NodeType.NUMBER "0" [] []] [])
          = Except.error (RunError.err "LLV 函数的第二个参数必须是正整数")) := by
  have hs : evalNode closeData [] (Node.mk NodeType.NUMBER "1" [] [])
      = Except.ok (List.replicate 10 (FVal.num 1)) := by
    with_unfolding_all rfl
  exact ⟨by decide, hs, by decide,
    c10_nonpositive_period (toSeries [5]) 0 (by decide) closeData []
      (Node.mk NodeType.NUMBER "1" [] []) (Node.mk NodeType.NUMBER "0" [] []) []
      (List.replicate 10 (FVal.num 1)) hs (by decide)⟩

/-- Witness for C3 (amended) on the bare statement `V9;`. -/
theorem c3_witness :
    (0 : Int) ≤ 0
    ∧ (Token.mk TokenType.IDENTIFIER "V9").type = TokenType.IDENTIFIER
    ∧ (Token.mk TokenType.SEMICOLON ";").type ≠ TokenType.ASSIGN_OP
    ∧ ([Token.mk TokenType.IDENTIFIER "V9",
        Token.mk TokenType.SEMICOLON ";"]).drop (0 : Int).toNat
      = Token.mk TokenType.IDENTIFIER "V9" :: Token.mk TokenType.SEMICOLON ";" :: []
    ∧ ((parseStatement (0 + 1)
        [Token.mk TokenType.IDENTIFIER "V9", Token.mk TokenType.SEMICOLON ";"]
        [] 0 []).symAfter = []
      ∧ runProgram 100 "V1:=1;V2:=2;V1+V2;" closeData
          = Except.ok [("V1", List.replicate 10 (FVal.num 1)),
              ("V2", List.replicate 10 (FVal.num 2))]
      ∧ runProgram 100 "1.2.3;" closeData = Except.ok []) :=
  ⟨by decide, by decide, by decide, by decide,
    c3_bare_expression 0
      [Token.mk TokenType.IDENTIFIER "V9", Token.mk TokenType.SEMICOLON ";"]
      [] [] 0 (Token.mk TokenType.IDENTIFIER "V9") (Token.mk TokenType.SEMICOLON ";")
      [] (by decide) (by decide) (by decide) (by decide)⟩

end Formula
